import Mathlib

/-!
Verification of the PostForMe backend's publishing pipeline.

The server keeps a process-wide rate-limiter state (`tweetCount`,
`lastResetTime`), builds language-specific prompts for a generative API,
sanitizes the generated text, and publishes single tweets or reply-chained
threads to the platform API.  We embed the stateful handlers as pure
functions that take the current wall-clock time, the request body, an
oracle describing the upstream API's responses, and the rate-limiter
state, and return the HTTP response body, the successor state, and the
trace of publish calls that were issued upstream.

Times are modelled as naturals (milliseconds, as returned by the clock);
the upstream publish API is modelled as `Except String TweetResponse`
where the error carries the details string the handler would forward and
`TweetResponse.id` is the (possibly absent) created-post identifier.
-/

namespace PostForMe

/-- `const TWEET_LIMIT = 17` -/
def TWEET_LIMIT : Nat := 17

/-- `const RESET_PERIOD = 24 * 60 * 60 * 1000` (24 hours in milliseconds) -/
def RESET_PERIOD : Nat := 24 * 60 * 60 * 1000

/-- The module-level mutable rate-limit state: `tweetCount`, `lastResetTime`. -/
structure RateState where
  tweetCount : Nat
  lastResetTime : Nat
deriving Repr, DecidableEq

/-- Result of `checkRateLimit()`: `{ allowed, remaining }`. -/
structure RateCheck where
  allowed : Bool
  remaining : Nat
deriving Repr, DecidableEq

/-- `checkRateLimit` from the source: resets the counter when more than
`RESET_PERIOD` has elapsed since `lastResetTime`, otherwise answers from the
current count.  Returns the result together with the (possibly reset) state. -/
def checkRateLimit (now : Nat) (s : RateState) : RateCheck × RateState :=
  if RESET_PERIOD < now - s.lastResetTime then
    (⟨true, TWEET_LIMIT⟩, ⟨0, now⟩)
  else if TWEET_LIMIT ≤ s.tweetCount then
    (⟨false, 0⟩, s)
  else
    (⟨true, TWEET_LIMIT - s.tweetCount⟩, s)

/-- Phrased from the specification text (§4.3), with exact integer time
arithmetic: if current time − windowStart exceeds 24 hours, reset count to 0
and windowStart to now and answer allowed with remaining = 17; else if
count ≥ 17 answer not allowed with remaining 0; else answer allowed with
remaining = 17 − count, leaving the state unchanged. -/
def check_fromSpec (now : Nat) (s : RateState) : RateCheck × RateState :=
  if (now : Int) - (s.lastResetTime : Int) > 24 * 60 * 60 * 1000 then
    (⟨true, 17⟩, ⟨0, now⟩)
  else if s.tweetCount ≥ 17 then
    (⟨false, 0⟩, s)
  else
    (⟨true, 17 - s.tweetCount⟩, s)

/-- C1: for every rate-limiter state and current time, `checkRateLimit`
behaves exactly as the specification's three-case description: reset to a
fresh window (allowed, remaining 17) when more than 24 hours elapsed,
refuse with remaining 0 when the count has reached 17, and otherwise allow
with remaining 17 − count, leaving the state unchanged in the two
non-reset cases. -/
theorem checkRateLimit_matches_spec (now : Nat) (s : RateState) :
    checkRateLimit now s = check_fromSpec now s := by
  unfold checkRateLimit check_fromSpec
  have hcond : (RESET_PERIOD < now - s.lastResetTime) ↔
      ((now : Int) - (s.lastResetTime : Int) > 24 * 60 * 60 * 1000) := by
    unfold RESET_PERIOD
    omega
  by_cases hr : RESET_PERIOD < now - s.lastResetTime
  · rw [if_pos hr, if_pos (hcond.mp hr)]
    rfl
  · rw [if_neg hr, if_neg (fun hc => hr (hcond.mpr hc))]
    rfl

/-- The relevant part of the platform API's response body: `data.id`, which
optional chaining may leave `undefined`. -/
structure TweetResponse where
  id : Option String
deriving Repr, DecidableEq

/-- One publish request issued upstream: the JSON body is `{ text }` when
`reply = none` and `{ text, reply: { in_reply_to_tweet_id } }` otherwise. -/
structure PublishCall where
  text : String
  reply : Option String
deriving Repr, DecidableEq

/-- `process.env.TWITTER_USERNAME || "user"`; the environment is modelled as
unset, so the default applies. -/
def TWITTER_USERNAME : String := "user"

/-- URL template applied to a created post's identifier. -/
def tweetUrlOf (id : String) : String :=
  s!"https://twitter.com/{TWITTER_USERNAME}/status/{id}"

/-- `rateLimit` object included in successful publish responses. -/
structure RateInfo where
  remaining : Nat
  resetTime : Nat
deriving Repr, DecidableEq

/-- Response bodies of `POST /post-tweet`, by status code:
400, 429, 200, 500. -/
inductive TweetReply where
  | badRequest (error : String)
  | rateLimited (error : String) (details : String) (resetTime : Nat)
  | success (tweetId : Option String) (tweetUrl : Option String) (rateLimit : RateInfo)
  | serverError (error : String) (details : String)
deriving Repr, DecidableEq

/-- The `POST /post-tweet` handler.  `tweet` is the request-body field
(`none` when missing), `upstream` the outcome of the single signed publish
call.  Returns the response body, the successor rate-limit state, and the
list of publish calls issued. -/
def postTweetHandler (now : Nat) (tweet : Option String)
    (upstream : Except String TweetResponse) (s : RateState) :
    TweetReply × RateState × List PublishCall :=
  if tweet = none ∨ tweet = some "" then
    (.badRequest "Tweet content is required", s, [])
  else
    let t := tweet.getD ""
    let rl := (checkRateLimit now s).1
    let s1 := (checkRateLimit now s).2
    if rl.allowed = false then
      (.rateLimited "Rate limit exceeded"
        "You have reached your limit of 17 tweets per 24 hours."
        (s1.lastResetTime + RESET_PERIOD), s1, [])
    else
      match upstream with
      | .error e =>
          (.serverError "Failed to post tweet" e, s1, [⟨t, none⟩])
      | .ok resp =>
          let s2 : RateState := ⟨s1.tweetCount + 1, s1.lastResetTime⟩
          (.success resp.id (resp.id.map tweetUrlOf)
            ⟨TWEET_LIMIT - s2.tweetCount, s2.lastResetTime + RESET_PERIOD⟩,
           s2, [⟨t, none⟩])

/-- One entry of `threadResults`. -/
structure ThreadItem where
  tweetId : Option String
  tweetUrl : Option String
  text : String
deriving Repr, DecidableEq

/-- Response bodies of `POST /post-thread`, by status code:
400, 429, 200, 500. -/
inductive ThreadReply where
  | badRequest (error : String)
  | rateLimited (error : String) (details : String) (resetTime : Nat)
  | success (threadResults : List ThreadItem) (rateLimit : RateInfo)
  | serverError (error : String) (details : String)
deriving Repr, DecidableEq

/-- Identifier a successful upstream response carries (`none` on failure). -/
def upstreamId : Except String TweetResponse → Option String
  | .ok r => r.id
  | .error _ => none

/-- The `for (const tweetText of tweets)` loop of the thread handler.
`upstream i` is the outcome of the i-th signed publish call (0-based),
`prev` the `prevTweetId` accumulator, `cnt` the current `tweetCount`.
Returns the accumulated `threadResults` (or the first error, which aborts
the loop), the final `tweetCount`, and the publish calls issued. -/
def postThreadLoop (upstream : Nat → Except String TweetResponse) :
    List String → Nat → Option String → Nat →
    Except String (List ThreadItem) × Nat × List PublishCall
  | [], _, _, cnt => (.ok [], cnt, [])
  | t :: ts, i, prev, cnt =>
    match upstream i with
    | .error e => (.error e, cnt, [⟨t, prev⟩])
    | .ok resp =>
        let item : ThreadItem := ⟨resp.id, resp.id.map tweetUrlOf, t⟩
        let rest := postThreadLoop upstream ts (i + 1) resp.id (cnt + 1)
        (rest.1.map (fun items => item :: items), rest.2.1,
         ⟨t, prev⟩ :: rest.2.2)

/-- The 429 details string of `POST /post-thread`. -/
def threadLimitDetails (remaining n : Nat) : String :=
  s!"You have only {remaining} tweets left out of your 17 tweets per 24 hours, but trying to post {n} tweets."

/-- The `POST /post-thread` handler.  `tweets` is `none` when the field is
missing or not an array. -/
def postThreadHandler (now : Nat) (tweets : Option (List String))
    (upstream : Nat → Except String TweetResponse) (s : RateState) :
    ThreadReply × RateState × List PublishCall :=
  match tweets with
  | none => (.badRequest "Valid tweets array is required", s, [])
  | some ts =>
    if ts.length = 0 then
      (.badRequest "Valid tweets array is required", s, [])
    else
      let rl := (checkRateLimit now s).1
      let s1 := (checkRateLimit now s).2
      if rl.allowed = false ∨ rl.remaining < ts.length then
        (.rateLimited "Rate limit exceeded"
          (threadLimitDetails rl.remaining ts.length)
          (s1.lastResetTime + RESET_PERIOD), s1, [])
      else
        match postThreadLoop upstream ts 0 none s1.tweetCount with
        | (.error e, cnt, calls) =>
            (.serverError "Failed to post thread" e,
             ⟨cnt, s1.lastResetTime⟩, calls)
        | (.ok items, cnt, calls) =>
            (.success items ⟨TWEET_LIMIT - cnt, s1.lastResetTime + RESET_PERIOD⟩,
             ⟨cnt, s1.lastResetTime⟩, calls)

/-- The `GET /rate-limit` handler. -/
def rateLimitHandler (now : Nat) (s : RateState) : RateInfo × RateState :=
  let rl := (checkRateLimit now s).1
  let s1 := (checkRateLimit now s).2
  (⟨rl.remaining, s1.lastResetTime + RESET_PERIOD⟩, s1)

/-! ### Helper lemmas about the rate limiter and the thread loop -/

theorem checkRateLimit_state_cases (now : Nat) (s : RateState) :
    (checkRateLimit now s).2 = s ∨ (checkRateLimit now s).2 = ⟨0, now⟩ := by
  unfold checkRateLimit
  by_cases h1 : RESET_PERIOD < now - s.lastResetTime
  · rw [if_pos h1]; exact Or.inr rfl
  · rw [if_neg h1]
    by_cases h2 : TWEET_LIMIT ≤ s.tweetCount
    · rw [if_pos h2]; exact Or.inl rfl
    · rw [if_neg h2]; exact Or.inl rfl

theorem checkRateLimit_refused_state (now : Nat) (s : RateState)
    (h : (checkRateLimit now s).1.allowed = false) :
    (checkRateLimit now s).2 = s ∧ (checkRateLimit now s).1.remaining = 0 ∧
      TWEET_LIMIT ≤ s.tweetCount := by
  revert h
  unfold checkRateLimit
  by_cases h1 : RESET_PERIOD < now - s.lastResetTime
  · rw [if_pos h1]; intro h; cases h
  · rw [if_neg h1]
    by_cases h2 : TWEET_LIMIT ≤ s.tweetCount
    · rw [if_pos h2]; intro _; exact ⟨rfl, rfl, h2⟩
    · rw [if_neg h2]; intro h; cases h

theorem checkRateLimit_allowed_count (now : Nat) (s : RateState)
    (h : (checkRateLimit now s).1.allowed = true) :
    (checkRateLimit now s).2.tweetCount < TWEET_LIMIT ∧
      (checkRateLimit now s).1.remaining
        = TWEET_LIMIT - (checkRateLimit now s).2.tweetCount := by
  revert h
  unfold checkRateLimit
  by_cases h1 : RESET_PERIOD < now - s.lastResetTime
  · rw [if_pos h1]
    intro _
    exact ⟨by norm_num [TWEET_LIMIT], rfl⟩
  · rw [if_neg h1]
    by_cases h2 : TWEET_LIMIT ≤ s.tweetCount
    · rw [if_pos h2]; intro h; cases h
    · rw [if_neg h2]
      intro _
      exact ⟨Nat.lt_of_not_le h2, rfl⟩

/-- Bookkeeping facts about one run of the thread-publishing loop: at most
one publish call per input text; when the loop completes, the counter grew
by exactly the number of calls, one per text; when it aborts on an error,
every call but the failing one incremented the counter. -/
theorem postThreadLoop_count_spec (up : Nat → Except String TweetResponse)
    (ts : List String) (i : Nat) (prev : Option String) (cnt : Nat) :
    (postThreadLoop up ts i prev cnt).2.2.length ≤ ts.length ∧
    (∀ its, (postThreadLoop up ts i prev cnt).1 = .ok its →
      (postThreadLoop up ts i prev cnt).2.1
        = cnt + (postThreadLoop up ts i prev cnt).2.2.length ∧
      (postThreadLoop up ts i prev cnt).2.2.length = ts.length) ∧
    (∀ e, (postThreadLoop up ts i prev cnt).1 = .error e →
      (postThreadLoop up ts i prev cnt).2.1 + 1
        = cnt + (postThreadLoop up ts i prev cnt).2.2.length) := by
  induction ts generalizing i prev cnt with
  | nil =>
      refine ⟨Nat.le_refl _, ?_, ?_⟩
      · intro its _; exact ⟨rfl, rfl⟩
      · intro e h; cases h
  | cons t ts ih =>
      cases hup : up i with
      | error e =>
          refine ⟨?_, ?_, ?_⟩
          · simp [postThreadLoop, hup]
          · intro its h
            simp [postThreadLoop, hup] at h
          · intro e' h
            simp [postThreadLoop, hup] at h ⊢
      | ok resp =>
          obtain ⟨ihlen, ihok, iherr⟩ := ih (i + 1) resp.id (cnt + 1)
          cases hres : (postThreadLoop up ts (i + 1) resp.id (cnt + 1)).1 with
          | error e =>
              refine ⟨?_, ?_, ?_⟩
              · simp only [postThreadLoop, hup]
                simpa using Nat.succ_le_succ ihlen
              · intro its h
                simp only [postThreadLoop, hup] at h
                rw [hres] at h
                cases h
              · intro e' h
                have := iherr e hres
                simp only [postThreadLoop, hup]
                simp only [List.length_cons]
                omega
          | ok its0 =>
              obtain ⟨hcnt, hlen⟩ := ihok its0 hres
              refine ⟨?_, ?_, ?_⟩
              · simp only [postThreadLoop, hup]
                simpa using Nat.succ_le_succ ihlen
              · intro its h
                simp only [postThreadLoop, hup]
                simp only [List.length_cons]
                omega
              · intro e' h
                simp only [postThreadLoop, hup] at h
                rw [hres] at h
                cases h

/-- C2: a publish operation (the single-post handler, and each step of the
thread loop) increments the rate-limit counter by exactly one when and only
when its upstream publish call succeeds; a failed publish call, or a request
rejected before any call, leaves the counter unincremented. -/
theorem quota_consumed_only_on_success :
    (∀ (now : Nat) (t : String) (s : RateState)
        (up : Except String TweetResponse),
      (∀ e, up = .error e →
        (postTweetHandler now (some t) up s).2.2 ≠ [] →
        ((postTweetHandler now (some t) up s).2.1).tweetCount
          = ((checkRateLimit now s).2).tweetCount) ∧
      (∀ r, up = .ok r →
        (postTweetHandler now (some t) up s).2.2 ≠ [] →
        ((postTweetHandler now (some t) up s).2.1).tweetCount
          = ((checkRateLimit now s).2).tweetCount + 1) ∧
      ((postTweetHandler now (some t) up s).2.2 = [] →
        ((postTweetHandler now (some t) up s).2.1).tweetCount
          = s.tweetCount)) ∧
    (∀ (up : Nat → Except String TweetResponse) (ts : List String)
        (i : Nat) (prev : Option String) (cnt : Nat),
      (∀ its, (postThreadLoop up ts i prev cnt).1 = .ok its →
        (postThreadLoop up ts i prev cnt).2.1
          = cnt + (postThreadLoop up ts i prev cnt).2.2.length) ∧
      (∀ e, (postThreadLoop up ts i prev cnt).1 = .error e →
        (postThreadLoop up ts i prev cnt).2.1 + 1
          = cnt + (postThreadLoop up ts i prev cnt).2.2.length)) := by
  constructor
  · intro now t s up
    by_cases ht : t = ""
    · refine ⟨?_, ?_, ?_⟩
      · intro e _ hne
        exact absurd (by simp [postTweetHandler, ht]) hne
      · intro r _ hne
        exact absurd (by simp [postTweetHandler, ht]) hne
      · intro _
        simp [postTweetHandler, ht]
    · by_cases hal : (checkRateLimit now s).1.allowed = false
      · obtain ⟨hst, _, _⟩ := checkRateLimit_refused_state now s hal
        refine ⟨?_, ?_, ?_⟩
        · intro e _ hne
          exact absurd (by simp [postTweetHandler, ht, hal]) hne
        · intro r _ hne
          exact absurd (by simp [postTweetHandler, ht, hal]) hne
        · intro _
          simp [postTweetHandler, ht, hal, hst]
      · refine ⟨?_, ?_, ?_⟩
        · intro e hup _
          simp [postTweetHandler, ht, hal, hup]
        · intro r hup _
          simp [postTweetHandler, ht, hal, hup]
        · intro hemp
          exfalso
          revert hemp
          cases up with
          | error e => simp [postTweetHandler, ht, hal]
          | ok r => simp [postTweetHandler, ht, hal]
  · intro up ts i prev cnt
    obtain ⟨_, hok, herr⟩ := postThreadLoop_count_spec up ts i prev cnt
    exact ⟨fun its h => (hok its h).1, herr⟩

/-- A fixed always-succeeding upstream oracle used for concrete runs:
every publish call succeeds and the platform answers with post id "9". -/
def okUpstream : Nat → Except String TweetResponse :=
  fun _ => .ok ⟨some "9"⟩

theorem quota_consumed_only_on_success_witness :
    (postTweetHandler 0 (some "a") (Except.error "x") ⟨3, 0⟩).2.1.tweetCount = 3 ∧
    (postTweetHandler 0 (some "a") (Except.ok ⟨some "9"⟩) ⟨3, 0⟩).2.1.tweetCount = 4 ∧
    (postThreadLoop okUpstream ["a", "b"] 0 none 3).2.1 = 5 := by
  have h := quota_consumed_only_on_success
  refine ⟨?_, ?_, ?_⟩
  · have h1 := ((h.1 0 "a" ⟨3, 0⟩ (Except.error "x")).1) "x" rfl (by decide)
    rw [h1]
    decide
  · have h2 := ((h.1 0 "a" ⟨3, 0⟩ (Except.ok ⟨some "9"⟩)).2.1) ⟨some "9"⟩ rfl (by decide)
    rw [h2]
    decide
  · have h3 := (h.2 okUpstream ["a", "b"] 0 none 3).1
      [⟨some "9", some "https://twitter.com/user/status/9", "a"⟩,
       ⟨some "9", some "https://twitter.com/user/status/9", "b"⟩] rfl
    rw [h3]
    decide

theorem checkRateLimit_count_le (now : Nat) (s : RateState)
    (h : s.tweetCount ≤ TWEET_LIMIT) :
    (checkRateLimit now s).2.tweetCount ≤ TWEET_LIMIT := by
  rcases checkRateLimit_state_cases now s with hc | hc <;> rw [hc]
  · exact h
  · exact Nat.zero_le _

/-- C10: every state-mutating handler preserves the bound
`tweetCount ≤ TWEET_LIMIT` (the count, a natural number, is also never
negative): the single-post handler increments only when the check allowed
it, and the thread handler runs its loop only when `remaining` covers the
whole batch. -/
theorem tweetCount_invariant (now : Nat) (tw : Option String)
    (tss : Option (List String)) (up1 : Except String TweetResponse)
    (upT : Nat → Except String TweetResponse) (s : RateState)
    (h : s.tweetCount ≤ TWEET_LIMIT) :
    (postTweetHandler now tw up1 s).2.1.tweetCount ≤ TWEET_LIMIT ∧
    (postThreadHandler now tss upT s).2.1.tweetCount ≤ TWEET_LIMIT ∧
    (rateLimitHandler now s).2.tweetCount ≤ TWEET_LIMIT := by
  have hs1 := checkRateLimit_count_le now s h
  refine ⟨?_, ?_, ?_⟩
  · cases tw with
    | none => simpa [postTweetHandler] using h
    | some t =>
        by_cases ht : t = ""
        · simpa [postTweetHandler, ht] using h
        · by_cases hal : (checkRateLimit now s).1.allowed = false
          · simpa [postTweetHandler, ht, hal] using hs1
          · have hal' : (checkRateLimit now s).1.allowed = true := by
              cases hb : (checkRateLimit now s).1.allowed
              · exact absurd hb hal
              · rfl
            have hlt := (checkRateLimit_allowed_count now s hal').1
            cases up1 with
            | error e => simpa [postTweetHandler, ht, hal] using hs1
            | ok r =>
                simp [postTweetHandler, ht, hal']
                omega
  · cases tss with
    | none => simpa [postThreadHandler] using h
    | some ts =>
        by_cases hlen : ts.length = 0
        · simpa [postThreadHandler, hlen] using h
        · by_cases hrl : ((checkRateLimit now s).1.allowed = false ∨
              (checkRateLimit now s).1.remaining < ts.length)
          · simpa [postThreadHandler, hlen, hrl] using hs1
          · have hal' : (checkRateLimit now s).1.allowed = true := by
              cases hb : (checkRateLimit now s).1.allowed
              · exact absurd (Or.inl hb) hrl
              · rfl
            have hrem : ts.length ≤ (checkRateLimit now s).1.remaining := by
              by_contra hc
              exact hrl (Or.inr (Nat.lt_of_not_le hc))
            obtain ⟨hlt, hremeq⟩ := checkRateLimit_allowed_count now s hal'
            obtain ⟨hclen, hok, herr⟩ := postThreadLoop_count_spec upT ts 0 none
              ((checkRateLimit now s).2).tweetCount
            rcases hL : postThreadLoop upT ts 0 none
                ((checkRateLimit now s).2).tweetCount with ⟨res, cnt, calls⟩
            rw [hL] at hclen hok herr
            cases res with
            | error e =>
                have := herr e rfl
                simp only [postThreadHandler, hlen, hrl, if_neg, reduceIte, hL]
                simp only at this hclen ⊢
                omega
            | ok its =>
                have := hok its rfl
                simp only [postThreadHandler, hlen, hrl, if_neg, reduceIte, hL]
                simp only at this hclen ⊢
                omega
  · simpa [rateLimitHandler] using hs1

theorem tweetCount_invariant_witness :
    (postTweetHandler 0 (some "a") (Except.ok ⟨some "9"⟩)
        ⟨3, 0⟩).2.1.tweetCount ≤ TWEET_LIMIT ∧
    (postThreadHandler 0 (some ["a", "b"]) okUpstream
        ⟨3, 0⟩).2.1.tweetCount ≤ TWEET_LIMIT ∧
    (rateLimitHandler 0 ⟨3, 0⟩).2.tweetCount ≤ TWEET_LIMIT :=
  tweetCount_invariant 0 (some "a") (some ["a", "b"])
    (Except.ok ⟨some "9"⟩) okUpstream ⟨3, 0⟩ (by decide)

theorem postThreadLoop_cons_calls_ne (up : Nat → Except String TweetResponse)
    (t : String) (ts : List String) (i : Nat) (prev : Option String)
    (cnt : Nat) :
    (postThreadLoop up (t :: ts) i prev cnt).2.2 ≠ [] := by
  cases hup : up i <;> simp [postThreadLoop, hup]

/-- C3 counterexample: with count 5 in an expired window and a request for
18 texts, the handler answers 429 and issues no publish call, but the
counter does change: `checkRateLimit` already reset it from 5 to 0. -/
theorem thread_reject_changes_counter :
    ((postThreadHandler (RESET_PERIOD + 1) (some (List.replicate 18 "a"))
        okUpstream ⟨5, 0⟩).1
      = .rateLimited "Rate limit exceeded" (threadLimitDetails 17 18)
          (RESET_PERIOD + 1 + RESET_PERIOD)) ∧
    (postThreadHandler (RESET_PERIOD + 1) (some (List.replicate 18 "a"))
        okUpstream ⟨5, 0⟩).2.2 = [] ∧
    ¬ ((postThreadHandler (RESET_PERIOD + 1) (some (List.replicate 18 "a"))
        okUpstream ⟨5, 0⟩).2.1.tweetCount = 5) := by
  refine ⟨by decide, by decide, by decide⟩

/-- C3 (amended): for a non-empty thread request, when the limiter reports
not-allowed or reports `remaining <` the number of texts, the handler
responds 429 with the reset timestamp, issues no publish call, and never
increments the counter — the counter is unchanged except possibly for
the window-expiry reset to zero performed inside `check()`; when the
limiter allows and `remaining` covers the batch, publishing begins (at
least one publish call is issued). -/
theorem thread_reject_over_limit (now : Nat) (ts : List String)
    (up : Nat → Except String TweetResponse) (s : RateState)
    (hne : ts ≠ []) :
    ((checkRateLimit now s).1.allowed = false ∨
        (checkRateLimit now s).1.remaining < ts.length →
      (postThreadHandler now (some ts) up s).1
          = .rateLimited "Rate limit exceeded"
              (threadLimitDetails (checkRateLimit now s).1.remaining ts.length)
              ((checkRateLimit now s).2.lastResetTime + RESET_PERIOD) ∧
      (postThreadHandler now (some ts) up s).2.2 = [] ∧
      ((postThreadHandler now (some ts) up s).2.1.tweetCount = s.tweetCount ∨
        (postThreadHandler now (some ts) up s).2.1.tweetCount = 0)) ∧
    ((checkRateLimit now s).1.allowed = true ∧
        ts.length ≤ (checkRateLimit now s).1.remaining →
      (postThreadHandler now (some ts) up s).2.2 ≠ []) := by
  have hlen : ¬ ts.length = 0 := by
    simpa using hne
  constructor
  · intro hrl
    have hrl' : ((checkRateLimit now s).1.allowed = false ∨
        (checkRateLimit now s).1.remaining < ts.length) := hrl
    refine ⟨by simp [postThreadHandler, hlen, hrl'], by simp [postThreadHandler, hlen, hrl'], ?_⟩
    have hst := checkRateLimit_state_cases now s
    rcases hst with hc | hc <;>
      simp [postThreadHandler, hlen, hrl', hc]
  · rintro ⟨hal, hrem⟩
    have hrl' : ¬ ((checkRateLimit now s).1.allowed = false ∨
        (checkRateLimit now s).1.remaining < ts.length) := by
      rintro (hc | hc)
      · rw [hal] at hc; cases hc
      · exact absurd hrem (Nat.not_le_of_lt hc)
    cases ts with
    | nil => exact absurd rfl hne
    | cons t ts' =>
        have hne' := postThreadLoop_cons_calls_ne up t ts' 0 none
          ((checkRateLimit now s).2).tweetCount
        rcases hL : postThreadLoop up (t :: ts') 0 none
            ((checkRateLimit now s).2).tweetCount with ⟨res, cnt, calls⟩
        rw [hL] at hne'
        cases res with
        | error e =>
            simp only [List.length_cons] at hrl'
            simpa [postThreadHandler, hrl', hL] using hne'
        | ok its =>
            simp only [List.length_cons] at hrl'
            simpa [postThreadHandler, hrl', hL] using hne'

theorem thread_reject_over_limit_witness :
    (postThreadHandler 0 (some ["a"]) okUpstream ⟨17, 0⟩).2.2 = [] ∧
    (postThreadHandler 0 (some ["b"]) okUpstream ⟨0, 0⟩).2.2 ≠ [] := by
  have h1 := (thread_reject_over_limit 0 ["a"] okUpstream ⟨17, 0⟩
    (by decide)).1 (Or.inl (by decide))
  have h2 := (thread_reject_over_limit 0 ["b"] okUpstream ⟨0, 0⟩
    (by decide)).2 ⟨by decide, by decide⟩
  exact ⟨h1.2.1, h2⟩

/-- When the rate check lets a non-empty batch through, the publish calls
the thread handler reports are exactly those of its loop, whether the loop
completed or aborted. -/
theorem postThreadHandler_calls_eq_loop (now : Nat) (ts : List String)
    (up : Nat → Except String TweetResponse) (s : RateState)
    (hlen : ¬ ts.length = 0)
    (hrl : ¬ ((checkRateLimit now s).1.allowed = false ∨
        (checkRateLimit now s).1.remaining < ts.length)) :
    (postThreadHandler now (some ts) up s).2.2
      = (postThreadLoop up ts 0 none
          ((checkRateLimit now s).2).tweetCount).2.2 := by
  rcases hL : postThreadLoop up ts 0 none
      ((checkRateLimit now s).2).tweetCount with ⟨res, cnt, calls⟩
  cases res with
  | error e => simp [postThreadHandler, hlen, hrl, hL]
  | ok its => simp [postThreadHandler, hlen, hrl, hL]

/-- Structure of the loop's publish calls when every upstream call
succeeds: one call per text, in order, the first replying to `prev`, each
later one replying to the identifier the previous call returned. -/
theorem postThreadLoop_chain_spec (up : Nat → Except String TweetResponse)
    (ts : List String) :
    ∀ (i : Nat) (prev : Option String) (cnt : Nat),
      (∀ j, j < ts.length → (up (i + j)).isOk = true) →
      (postThreadLoop up ts i prev cnt).2.2.length = ts.length ∧
      (∀ hk : 0 < ts.length,
        (postThreadLoop up ts i prev cnt).2.2[0]? = some ⟨ts[0], prev⟩) ∧
      ∀ k (hk : k + 1 < ts.length),
        (postThreadLoop up ts i prev cnt).2.2[k + 1]?
          = some ⟨ts[k + 1], upstreamId (up (i + k))⟩ := by
  induction ts with
  | nil =>
      intro i prev cnt _
      exact ⟨rfl, fun hk => absurd hk (Nat.lt_irrefl 0),
        fun k hk => absurd hk (Nat.not_lt_zero _)⟩
  | cons t ts ih =>
      intro i prev cnt hok
      have h0 : (up i).isOk = true := by
        simpa using hok 0 (Nat.succ_pos _)
      cases hup : up i with
      | error e => rw [hup] at h0; cases h0
      | ok resp =>
          obtain ⟨ihlen, ihhead, ihidx⟩ := ih (i + 1) resp.id (cnt + 1) (by
            intro j hj
            have := hok (j + 1) (Nat.succ_lt_succ hj)
            simpa [Nat.add_assoc, Nat.add_comm 1 j] using this)
          refine ⟨?_, ?_, ?_⟩
          · simp only [postThreadLoop, hup, List.length_cons]
            rw [ihlen]
          · intro hk
            simp [postThreadLoop, hup]
          · intro k hk
            have hk' : k < ts.length := Nat.lt_of_succ_lt_succ hk
            simp only [postThreadLoop, hup, List.getElem?_cons_succ,
              List.getElem_cons_succ]
            cases k with
            | zero =>
                have := ihhead hk'
                rw [this]
                simp [upstreamId, hup]
            | succ m =>
                have := ihidx m hk'
                rw [this]
                have harg : i + 1 + m = i + (m + 1) := by omega
                rw [harg]

/-- C4: for a thread request whose every upstream call succeeds (and which
passes validation and the rate check), exactly one publish call per text is
issued, in index order; the first call carries no reply reference, and each
later call carries the identifier returned by the immediately preceding
call, forming one linear reply chain. -/
theorem thread_reply_chain (now : Nat) (ts : List String)
    (up : Nat → Except String TweetResponse) (s : RateState)
    (hal : (checkRateLimit now s).1.allowed = true)
    (hrem : ts.length ≤ (checkRateLimit now s).1.remaining)
    (hok : ∀ j, j < ts.length → (up j).isOk = true) :
    (postThreadHandler now (some ts) up s).2.2.length = ts.length ∧
    (∀ hk : 0 < ts.length,
      (postThreadHandler now (some ts) up s).2.2[0]? = some ⟨ts[0], none⟩) ∧
    ∀ k (hk : k + 1 < ts.length),
      (postThreadHandler now (some ts) up s).2.2[k + 1]?
        = some ⟨ts[k + 1], upstreamId (up k)⟩ := by
  by_cases hts : ts.length = 0
  · rw [List.length_eq_zero] at hts
    subst hts
    exact ⟨by simp [postThreadHandler],
      fun hk => absurd hk (Nat.lt_irrefl 0),
      fun k hk => absurd hk (Nat.not_lt_zero _)⟩
  · have hrl : ¬ ((checkRateLimit now s).1.allowed = false ∨
        (checkRateLimit now s).1.remaining < ts.length) := by
      rintro (hc | hc)
      · rw [hal] at hc; cases hc
      · exact absurd hrem (Nat.not_le_of_lt hc)
    have hcalls := postThreadHandler_calls_eq_loop now ts up s hts hrl
    obtain ⟨hlen, hhead, hidx⟩ := postThreadLoop_chain_spec up ts 0 none
      ((checkRateLimit now s).2).tweetCount (by simpa using hok)
    rw [hcalls]
    refine ⟨hlen, hhead, ?_⟩
    intro k hk
    have := hidx k hk
    simpa using this

theorem thread_reply_chain_witness :
    (postThreadHandler 0 (some ["a", "b"]) okUpstream ⟨0, 0⟩).2.2.length = 2 ∧
    (postThreadHandler 0 (some ["a", "b"]) okUpstream ⟨0, 0⟩).2.2[0]?
      = some ⟨"a", none⟩ ∧
    (postThreadHandler 0 (some ["a", "b"]) okUpstream ⟨0, 0⟩).2.2[1]?
      = some ⟨"b", some "9"⟩ := by
  have h := thread_reply_chain 0 ["a", "b"] okUpstream ⟨0, 0⟩
    (by decide) (by decide) (fun j hj => rfl)
  refine ⟨h.1, ?_, ?_⟩
  · have h0 := h.2.1 (by decide)
    rw [h0]
    decide
  · have h1 := h.2.2 0 (by decide)
    rw [h1]
    decide

/-- When the k-th upstream call (0-based) fails after k successes, the loop
aborts with that error having issued exactly k + 1 calls. -/
theorem postThreadLoop_err_spec (up : Nat → Except String TweetResponse)
    (ts : List String) :
    ∀ (i : Nat) (prev : Option String) (cnt : Nat) (k : Nat) (e : String),
      k < ts.length →
      (∀ j, j < k → (up (i + j)).isOk = true) →
      up (i + k) = .error e →
      (postThreadLoop up ts i prev cnt).1 = .error e ∧
      (postThreadLoop up ts i prev cnt).2.2.length = k + 1 := by
  induction ts with
  | nil =>
      intro _ _ _ k _ hk _ _
      exact absurd hk (Nat.not_lt_zero k)
  | cons t ts ih =>
      intro i prev cnt k e hk hprev herr
      cases k with
      | zero =>
          rw [Nat.add_zero] at herr
          refine ⟨?_, ?_⟩ <;> simp [postThreadLoop, herr]
      | succ k =>
          have h0 : (up i).isOk = true := by
            simpa using hprev 0 (Nat.succ_pos _)
          cases hup : up i with
          | error e' => rw [hup] at h0; cases h0
          | ok resp =>
              obtain ⟨ih1, ih2⟩ := ih (i + 1) resp.id (cnt + 1) k e
                (Nat.lt_of_succ_lt_succ hk)
                (by
                  intro j hj
                  have := hprev (j + 1) (Nat.succ_lt_succ hj)
                  simpa [Nat.add_assoc, Nat.add_comm 1 j] using this)
                (by
                  have harg : i + 1 + k = i + (k + 1) := by omega
                  rw [harg]
                  exact herr)
              refine ⟨?_, ?_⟩
              · simp only [postThreadLoop, hup]
                rw [ih1]
                rfl
              · simp only [postThreadLoop, hup, List.length_cons]
                rw [ih2]

/-- C5: when the k-th upstream call of a thread request fails (after k − 1
successes, 1-based), exactly k publish calls were issued — none past the
failing one — and the handler answers the 500 error carrying only the
failing call's details; in particular the response is not the success shape
that carries `threadResults`, so the already-published items are not
returned. -/
theorem thread_abort_on_first_failure (now : Nat) (ts : List String)
    (up : Nat → Except String TweetResponse) (s : RateState) (k : Nat)
    (e : String)
    (hal : (checkRateLimit now s).1.allowed = true)
    (hrem : ts.length ≤ (checkRateLimit now s).1.remaining)
    (hk : k < ts.length)
    (hprev : ∀ j, j < k → (up j).isOk = true)
    (herr : up k = .error e) :
    (postThreadHandler now (some ts) up s).1
        = .serverError "Failed to post thread" e ∧
    (postThreadHandler now (some ts) up s).2.2.length = k + 1 ∧
    ∀ its rli, (postThreadHandler now (some ts) up s).1
        ≠ ThreadReply.success its rli := by
  have hts : ¬ ts.length = 0 := by omega
  have hrl : ¬ ((checkRateLimit now s).1.allowed = false ∨
      (checkRateLimit now s).1.remaining < ts.length) := by
    rintro (hc | hc)
    · rw [hal] at hc; cases hc
    · exact absurd hrem (Nat.not_le_of_lt hc)
  obtain ⟨he1, he2⟩ := postThreadLoop_err_spec up ts 0 none
    ((checkRateLimit now s).2).tweetCount k e hk
    (by simpa using hprev) (by simpa using herr)
  rcases hL : postThreadLoop up ts 0 none
      ((checkRateLimit now s).2).tweetCount with ⟨res, cnt, calls⟩
  rw [hL] at he1 he2
  simp only at he1 he2
  subst he1
  have hresp : (postThreadHandler now (some ts) up s).1
      = .serverError "Failed to post thread" e := by
    simp [postThreadHandler, hts, hrl, hL]
  refine ⟨hresp, ?_, ?_⟩
  · have : (postThreadHandler now (some ts) up s).2.2 = calls := by
      simp [postThreadHandler, hts, hrl, hL]
    rw [this, he2]
  · intro its rli
    rw [hresp]
    intro hcon
    cases hcon

/-- Upstream oracle whose second call (index 1) fails with "boom" and whose
other calls succeed with post id "9". -/
def failAt1Upstream : Nat → Except String TweetResponse :=
  fun i => if i = 1 then .error "boom" else .ok ⟨some "9"⟩

theorem thread_abort_on_first_failure_witness :
    (postThreadHandler 0 (some ["a", "b", "c"]) failAt1Upstream ⟨0, 0⟩).1
        = .serverError "Failed to post thread" "boom" ∧
    (postThreadHandler 0 (some ["a", "b", "c"]) failAt1Upstream
        ⟨0, 0⟩).2.2.length = 2 := by
  have h := thread_abort_on_first_failure 0 ["a", "b", "c"] failAt1Upstream
    ⟨0, 0⟩ 1 "boom" (by decide) (by decide) (by decide)
    (by
      intro j hj
      have hj0 : j = 0 := by omega
      subst hj0
      rfl)
    rfl
  exact ⟨h.1, h.2.1⟩

/-! ### Sanitization of generated text -/

/-- A quote character as matched by the sanitizer's character class. -/
def isQuoteChar (c : Char) : Bool := c = '"' || c = '\''

/-- The leading-anchor half of the substitution: one quote removed from the
front when present. -/
def dropLeadQuote : List Char → List Char
  | [] => []
  | c :: cs => if isQuoteChar c then cs else c :: cs

/-- The trailing-anchor half of the substitution: one quote removed from the
end when present. -/
def dropTailQuote (l : List Char) : List Char :=
  match l.getLast? with
  | none => l
  | some c => if isQuoteChar c then l.dropLast else l

/-- An ASCII whitespace character, as removed by `.trim()`. -/
def isWsChar (c : Char) : Bool :=
  c = ' ' || c = '\t' || c = '\n' || c = '\r'

/-- `.trim()`: whitespace removed from both ends. -/
def trimChars (l : List Char) : List Char :=
  ((l.dropWhile isWsChar).reverse.dropWhile isWsChar).reverse

/-- `.trim()` lifted to strings. -/
def jsTrim (s : String) : String := String.mk (trimChars s.data)

/-- `tweet.replace(/^["\x27]|["\x27]$/g, "").trim()`: the global regex
removes at most one leading and one trailing quote (they need not match
each other), then whitespace is trimmed. -/
def cleanTweet (s : String) : String :=
  jsTrim (String.mk (dropTailQuote (dropLeadQuote s.data)))

/-- C6: sanitization strips one surrounding quote pair when present and
then trims: a fully quoted text loses exactly its outer quotes before
trimming, and a text with no boundary quote at either end is only
trimmed. -/
theorem cleanTweet_spec (s : String) :
    (∀ c1 c2 mid, isQuoteChar c1 = true → isQuoteChar c2 = true →
      s.data = c1 :: (mid ++ [c2]) →
      cleanTweet s = jsTrim (String.mk mid)) ∧
    ((∀ c, s.data.head? = some c → isQuoteChar c = false) →
      (∀ c, s.data.getLast? = some c → isQuoteChar c = false) →
      cleanTweet s = jsTrim s) := by
  obtain ⟨l⟩ := s
  constructor
  · intro c1 c2 mid hc1 hc2 hdata
    simp only [String.data] at hdata
    subst hdata
    unfold cleanTweet
    simp only [String.data]
    have hlead : dropLeadQuote (c1 :: (mid ++ [c2])) = mid ++ [c2] := by
      simp [dropLeadQuote, hc1]
    rw [hlead]
    have htail : dropTailQuote (mid ++ [c2]) = mid := by
      unfold dropTailQuote
      rw [List.getLast?_concat]
      simp [hc2, List.dropLast_concat]
    rw [htail]
  · intro hhead hlast
    simp only [String.data] at hhead hlast
    unfold cleanTweet
    simp only [String.data]
    have hlead : dropLeadQuote l = l := by
      cases l with
      | nil => rfl
      | cons c cs =>
          have := hhead c rfl
          simp [dropLeadQuote, this]
    rw [hlead]
    have htail : dropTailQuote l = l := by
      unfold dropTailQuote
      cases hg : l.getLast? with
      | none => rfl
      | some c =>
          have := hlast c hg
          simp [this]
    rw [htail]

theorem cleanTweet_spec_witness :
    cleanTweet "\"hello\"" = "hello" ∧ cleanTweet " hi " = "hi" := by
  constructor
  · have h := (cleanTweet_spec "\"hello\"").1 '"' '"'
      ['h', 'e', 'l', 'l', 'o'] rfl rfl (by decide)
    rw [h]
    decide
  · have h := (cleanTweet_spec " hi ").2
      (by intro c hc; cases hc; rfl)
      (by intro c hc; rw [show (" hi ".data.getLast? ) = some ' ' by decide] at hc
          cases hc; rfl)
    rw [h]
    decide

/-! ### Input validation of the publish handlers -/

/-- C7 counterexample: a thread request containing an empty item is not
rejected; both publish calls are issued, the second with empty text, and
the handler reports success. -/
theorem thread_empty_item_not_rejected :
    (postThreadHandler 0 (some ["hi", ""]) okUpstream ⟨0, 0⟩).1
        = ThreadReply.success
            [⟨some "9", some "https://twitter.com/user/status/9", "hi"⟩,
             ⟨some "9", some "https://twitter.com/user/status/9", ""⟩]
            ⟨15, RESET_PERIOD⟩ ∧
    (postThreadHandler 0 (some ["hi", ""]) okUpstream ⟨0, 0⟩).2.2
        = [⟨"hi", none⟩, ⟨"", some "9"⟩] := by
  exact ⟨by decide, by decide⟩

/-- C7 (amended): a single-post request whose tweet is missing or empty is
rejected with 400 before any external call, and a thread request whose
tweets field is missing, not an array, or an empty array is rejected with
400 before any external call; individual thread items, however, are not
checked for emptiness. -/
theorem publish_validation (now : Nat) (up1 : Except String TweetResponse)
    (upT : Nat → Except String TweetResponse) (s : RateState) :
    postTweetHandler now none up1 s
        = (.badRequest "Tweet content is required", s, []) ∧
    postTweetHandler now (some "") up1 s
        = (.badRequest "Tweet content is required", s, []) ∧
    postThreadHandler now none upT s
        = (.badRequest "Valid tweets array is required", s, []) ∧
    postThreadHandler now (some []) upT s
        = (.badRequest "Valid tweets array is required", s, []) := by
  refine ⟨rfl, ?_, rfl, rfl⟩
  simp [postTweetHandler]

/-! ### Thread prompt builder -/

/-- `getThreadPromptByLanguage(topic, partCount, language)`: the template
interpolates `topic` and the number passed as `partCount`; unknown
languages fall back to English. -/
def getThreadPromptByLanguage (topic : String) (partCount : Nat)
    (language : String) : String :=
  let english := "Write part " ++ toString partCount
    ++ " of a Twitter thread about: " ++ topic
    ++ ".\nKeep it under 280 characters. Make it sound natural and conversational, like one part of a cohesive thread.\nEnsure this part flows well if it\x27s not the first tweet. Create a natural continuation or development of ideas."
  let hindi := topic ++ " के बारे में एक ट्विटर थ्रेड का भाग "
    ++ toString partCount
    ++ " हिंदी में लिखें।\nइसे 280 अक्षरों से कम रखें। इसे स्वाभाविक और वार्तालाप जैसा बनाएं, जैसे एक सुसंगत थ्रेड का एक हिस्सा हो।\nसुनिश्चित करें कि यदि यह पहला ट्वीट नहीं है तो यह भाग अच्छी तरह से प्रवाहित होता है। विचारों का एक प्राकृतिक निरंतरता या विकास बनाएं।"
  let hinglish := topic ++ " ke baare mein ek Twitter thread ka part "
    ++ toString partCount
    ++ " Hinglish mein likhiye.\n280 characters se kam rakhein. Natural aur conversational sound karna chahiye, jaise cohesive thread ka ek hissa ho.\nEnsure kare ki agar ye first tweet nahi hai to ye part achhe se flow kare. Ideas ka natural continuation ya development create karein."
  if language = "hindi" then hindi
  else if language = "hinglish" then hinglish
  else english

/-- The `POST /generate-thread` loop: for `i` from 1 to `partCount` it
builds the prompt `getThreadPromptByLanguage(topic, i, language)` — the
loop index, not the total, is what the builder receives. -/
def generateThreadPrompts (topic : String) (partCount : Nat)
    (language : String) : List String :=
  (List.range' 1 partCount).map
    (fun i => getThreadPromptByLanguage topic i language)

/-- `pat` is a leading sequence of `l`. -/
def charsLead : List Char → List Char → Bool
  | [], _ => true
  | _ :: _, [] => false
  | p :: ps, c :: cs => p = c && charsLead ps cs

/-- `pat` occurs contiguously somewhere in `l`. -/
def charsOccur (pat : List Char) : List Char → Bool
  | [] => charsLead pat []
  | c :: cs => charsLead pat (c :: cs) || charsOccur pat cs

/-- Substring occurrence on strings. -/
def strOccurs (pat s : String) : Bool := charsOccur pat.data s.data

theorem charsLead_append (l r : List Char) : charsLead l (l ++ r) = true := by
  induction l with
  | nil => rfl
  | cons c cs ih => simp [charsLead, ih]

theorem charsOccur_self_append (pat r : List Char) :
    charsOccur pat (pat ++ r) = true := by
  cases pat with
  | nil =>
      cases r with
      | nil => rfl
      | cons c cs => simp [charsOccur, charsLead]
  | cons p ps =>
      simp only [List.cons_append, charsOccur]
      have h := charsLead_append (p :: ps) r
      simp only [List.cons_append] at h
      simp [h]

theorem charsOccur_cons_of (pat : List Char) (c : Char) (l : List Char)
    (h : charsOccur pat l = true) : charsOccur pat (c :: l) = true := by
  cases l with
  | nil => simp [charsOccur] at h ⊢; simp [h]
  | cons d ds => simp only [charsOccur] at h ⊢; simp [h]

theorem charsOccur_append_of (pat a l : List Char)
    (h : charsOccur pat l = true) : charsOccur pat (a ++ l) = true := by
  induction a with
  | nil => simpa using h
  | cons c cs ih => simpa using charsOccur_cons_of pat c (cs ++ l) ih

set_option maxRecDepth 100000 in
/-- C8 counterexample: the prompt the handler builds for part 2 of a
5-part thread is identical to the one it builds for part 2 of a 3-part
thread, and the digit of the total part count, 5, occurs nowhere in it —
the template names only the part index, never the total part count. -/
theorem thread_prompt_ignores_total_count :
    (generateThreadPrompts "T" 5 "english").getD 1 ""
        = (generateThreadPrompts "T" 3 "english").getD 1 "" ∧
    strOccurs "5" ((generateThreadPrompts "T" 5 "english").getD 1 "")
        = false := by
  exact ⟨by decide, by decide⟩

/-- C8 (amended): for part `i` of an `n`-part request, the handler builds
the language-specific thread template for part index `i`; the prompt names
the part index (its decimal form occurs in the English template) but does
not depend on the total part count `n` at all. -/
theorem thread_prompt_names_part_index (topic language : String)
    (n m i : Nat) (hin : i < n) (him : i < m) :
    (generateThreadPrompts topic n language)[i]?
        = some (getThreadPromptByLanguage topic (i + 1) language) ∧
    (generateThreadPrompts topic n language)[i]?
        = (generateThreadPrompts topic m language)[i]? ∧
    strOccurs (toString (i + 1))
        (getThreadPromptByLanguage topic (i + 1) "english") = true := by
  have hget : ∀ (p : Nat), i < p →
      (generateThreadPrompts topic p language)[i]?
        = some (getThreadPromptByLanguage topic (i + 1) language) := by
    intro p hp
    unfold generateThreadPrompts
    rw [List.getElem?_map]
    rw [List.getElem?_range' _ _ hp]
    simp [Nat.add_comm 1 i]
  refine ⟨hget n hin, ?_, ?_⟩
  · rw [hget n hin, hget m him]
  · unfold strOccurs getThreadPromptByLanguage
    simp only [if_neg, String.reduceEq, reduceIte]
    have hdata : ("Write part " ++ toString (i + 1)
        ++ " of a Twitter thread about: " ++ topic
        ++ ".\nKeep it under 280 characters. Make it sound natural and conversational, like one part of a cohesive thread.\nEnsure this part flows well if it\x27s not the first tweet. Create a natural continuation or development of ideas.").data
        = "Write part ".data ++ ((toString (i + 1)).data
            ++ (" of a Twitter thread about: " ++ topic
            ++ ".\nKeep it under 280 characters. Make it sound natural and conversational, like one part of a cohesive thread.\nEnsure this part flows well if it\x27s not the first tweet. Create a natural continuation or development of ideas.").data) := by
      simp [String.data_append, List.append_assoc]
    rw [hdata]
    exact charsOccur_append_of _ _ _ (charsOccur_self_append _ _)

theorem thread_prompt_names_part_index_witness :
    (generateThreadPrompts "T" 3 "english")[1]?
        = some (getThreadPromptByLanguage "T" 2 "english") ∧
    (generateThreadPrompts "T" 3 "english")[1]?
        = (generateThreadPrompts "T" 5 "english")[1]? ∧
    strOccurs "2" (getThreadPromptByLanguage "T" 2 "english") = true := by
  have h := thread_prompt_names_part_index "T" "english" 3 5 1
    (by decide) (by decide)
  exact h

/-! ### 429 behaviour of the single-post handler -/

/-- C9 counterexample: with 17 posts consumed and `now` exactly at
`windowStart + 24h` — still inside the current window, since the reset
fires only strictly beyond it — the handler answers 429, but the reported
`resetTime` equals `now` instead of lying strictly in the future; the 429
body also carries no `remaining` field (only error, details, resetTime). -/
theorem post_tweet_429_boundary :
    (postTweetHandler RESET_PERIOD (some "hi") (Except.ok ⟨some "9"⟩)
        ⟨17, 0⟩).1
      = TweetReply.rateLimited "Rate limit exceeded"
          "You have reached your limit of 17 tweets per 24 hours."
          RESET_PERIOD ∧
    ¬ RESET_PERIOD < RESET_PERIOD := by
  exact ⟨by decide, by decide⟩

/-- C9 (amended): whenever 17 posts are consumed and the current window
has not yet expired (`now − windowStart ≤ 24h`), a non-empty post request
gets a 429 whose `resetTime` is `windowStart + 24h`, the internal check
reports remaining = 0 (the 429 body itself carries no remaining field),
no publish call is issued, and `resetTime` is never in the past — strictly
in the future whenever `now − windowStart < 24h`. -/
theorem post_tweet_429_when_limit_reached (now : Nat) (t : String)
    (up : Except String TweetResponse) (s : RateState)
    (ht : ¬ t = "")
    (hcount : TWEET_LIMIT ≤ s.tweetCount)
    (hwin : now - s.lastResetTime ≤ RESET_PERIOD) :
    (postTweetHandler now (some t) up s).1
        = TweetReply.rateLimited "Rate limit exceeded"
            "You have reached your limit of 17 tweets per 24 hours."
            (s.lastResetTime + RESET_PERIOD) ∧
    (checkRateLimit now s).1.remaining = 0 ∧
    (postTweetHandler now (some t) up s).2.2 = [] ∧
    now ≤ s.lastResetTime + RESET_PERIOD ∧
    (now - s.lastResetTime < RESET_PERIOD →
      now < s.lastResetTime + RESET_PERIOD) := by
  have hnores : ¬ RESET_PERIOD < now - s.lastResetTime := by omega
  have hcheck : checkRateLimit now s = (⟨false, 0⟩, s) := by
    unfold checkRateLimit
    rw [if_neg hnores, if_pos hcount]
  refine ⟨?_, ?_, ?_, by omega, by omega⟩
  · simp [postTweetHandler, ht, hcheck]
  · rw [hcheck]
  · simp [postTweetHandler, ht, hcheck]

theorem post_tweet_429_when_limit_reached_witness :
    (postTweetHandler 10 (some "hi") (Except.ok ⟨some "9"⟩) ⟨17, 0⟩).1
        = TweetReply.rateLimited "Rate limit exceeded"
            "You have reached your limit of 17 tweets per 24 hours."
            (0 + RESET_PERIOD) ∧
    (10 : Nat) < 0 + RESET_PERIOD := by
  have h := post_tweet_429_when_limit_reached 10 "hi" (Except.ok ⟨some "9"⟩)
    ⟨17, 0⟩ (by decide) (by decide) (by decide)
  exact ⟨h.1, h.2.2.2.2 (by decide)⟩

end PostForMe
